import Mathlib

/-
Shallow embedding of the bank-app account / registry / repository core
(src/account.py, src/registry.py, src/repositories/memory_repository.py).

Numbers: Python floats are modelled as exact rationals (ℚ).  Every literal
appearing in the code and in the claims (transfer amounts, the fees 0.0 /
1.0 / 5.0, the promo bonus 50, the sentinel -1775) is exactly representable,
and the claims are exact-arithmetic statements.

Strings: Python `str` is modelled as Lean `String`; comparisons and slicing
operate on the underlying character list, matching Python's code-point
lexicographic order.  `str.isdigit` is modelled for the ASCII digits
'0'..'9' that PESEL/NIP data consists of.
-/

set_option autoImplicit false

namespace BankApp

/-- Python `sum(xs)`: left fold of `+` starting from 0. -/
def listSum (l : List ℚ) : ℚ :=
  l.foldl (· + ·) 0

/-- The mutable part of `Account`: `self.balance` and `self.historia`. -/
structure AccountState where
  balance : ℚ
  historia : List ℚ
deriving DecidableEq, Repr

/-- `Account.__init__(self, balance)`: sets the balance, empties the history. -/
def accountInit (balance : ℚ) : AccountState :=
  { balance := balance, historia := [] }

/-- `Account.incoming_transfer`: if `amount > 0`, add to balance and append. -/
def incoming_transfer (s : AccountState) (amount : ℚ) : AccountState :=
  if 0 < amount then
    { balance := s.balance + amount, historia := s.historia ++ [amount] }
  else s

/-- `Account.outgoing_transfer`: if `0 < amount <= balance`, subtract and append `-amount`. -/
def outgoing_transfer (s : AccountState) (amount : ℚ) : AccountState :=
  if 0 < amount ∧ amount ≤ s.balance then
    { balance := s.balance - amount, historia := s.historia ++ [-amount] }
  else s

/-- `Account.express_transfer`: if `0 < amount <= balance`, charge
`amount + fee` and append `-amount` then `-fee`.  The fee is the class
attribute `express_transfer_fee` of the concrete account class, passed
here explicitly. -/
def express_transfer (fee : ℚ) (s : AccountState) (amount : ℚ) : AccountState :=
  if 0 < amount ∧ amount ≤ s.balance then
    { balance := s.balance - (amount + fee), historia := s.historia ++ [-amount, -fee] }
  else s

/-- `Account.express_transfer_fee = 0.0`. -/
def base_express_transfer_fee : ℚ := 0

/-- `PersonalAccount.express_transfer_fee = 1.0`. -/
def personal_express_transfer_fee : ℚ := 1

/-- `BusinessAccount.express_transfer_fee = 5.0`. -/
def business_express_transfer_fee : ℚ := 5

/-- One call out of the transfer interface of `Account`. -/
inductive Op where
  | incoming (amount : ℚ)
  | outgoing (amount : ℚ)
  | express (amount : ℚ)
deriving DecidableEq, Repr

/-- Apply one transfer call to the state (fee fixed by the account class). -/
def applyOp (fee : ℚ) (s : AccountState) : Op → AccountState
  | .incoming a => incoming_transfer s a
  | .outgoing a => outgoing_transfer s a
  | .express a => express_transfer fee s a

/-- Apply a sequence of transfer calls, left to right. -/
def runOps (fee : ℚ) (s : AccountState) (ops : List Op) : AccountState :=
  ops.foldl (applyOp fee) s

/-- Python code-point lexicographic `<=` on strings (as character lists). -/
def pyStrLe : List Char → List Char → Bool
  | [], _ => true
  | _ :: _, [] => false
  | a :: as, b :: bs => a < b || (a = b && pyStrLe as bs)

/-- Python `s.startswith(p)`. -/
def pyStartsWith (s p : String) : Bool :=
  p.data.isPrefixOf s.data

/-- Python `str.isdigit` restricted to ASCII, which PESEL/NIP data is. -/
def isPyDigit (c : Char) : Bool :=
  '0' ≤ c && c ≤ '9'

/-- The fields of `PersonalAccount`. -/
structure PersonalAccount where
  first_name : String
  last_name : String
  pesel : String
  promo_code : Option String
  state : AccountState
deriving DecidableEq, Repr

/-- The `is_born_in_60s` flag computed by `PersonalAccount.__init__`: an
11-character PESEL whose first two characters lie between `"60"` and
`"69"` in Python string order. -/
def is_born_in_60s (pesel : String) : Bool :=
  if pesel.length = 11 then
    pyStrLe "60".data (pesel.data.take 2) && pyStrLe (pesel.data.take 2) "69".data
  else false

/-- The promo condition of `PersonalAccount.__init__`: the promo code is
present, starts with `PROM_`, has total length 8, and `is_born_in_60s`. -/
def promo_bonus_applies (promo_code : Option String) (pesel : String) : Bool :=
  match promo_code with
  | none => false
  | some code => pyStartsWith code "PROM_" && code.length = 8 && is_born_in_60s pesel

/-- `PersonalAccount.__init__`: store the identity fields, then apply the
one-time promo bonus of 50 when `promo_bonus_applies`. -/
def personalInit (first_name last_name : String) (balance : ℚ) (pesel : String)
    (promo_code : Option String) : PersonalAccount :=
  let s := accountInit balance
  let s :=
    if promo_bonus_applies promo_code pesel then
      { balance := s.balance + 50, historia := s.historia ++ [50] }
    else s
  { first_name := first_name, last_name := last_name, pesel := pesel,
    promo_code := promo_code, state := s }

/-- Python `l[-n:]` for `n <= len(l)`: the last `n` elements. -/
def lastN (n : Nat) (l : List ℚ) : List ℚ :=
  l.drop (l.length - n)

/-- `PersonalAccount._check_loan_condition_1`: at least 3 history entries
and the last 3 all strictly positive. -/
def check_loan_condition_1 (s : AccountState) : Bool :=
  if s.historia.length < 3 then false
  else (lastN 3 s.historia).all (fun t => 0 < t)

/-- `PersonalAccount._check_loan_condition_2`: at least 5 history entries
and the sum of the last 5 strictly greater than `amount`. -/
def check_loan_condition_2 (s : AccountState) (amount : ℚ) : Bool :=
  if s.historia.length < 5 then false
  else amount < listSum (lastN 5 s.historia)

/-- `PersonalAccount.submit_for_loan`: returns the decision and the new state. -/
def submit_for_loan (s : AccountState) (amount : ℚ) : Bool × AccountState :=
  if check_loan_condition_1 s || check_loan_condition_2 s amount then
    (true, { balance := s.balance + amount, historia := s.historia ++ [amount] })
  else
    (false, s)

/-- The fields of `BusinessAccount`. -/
structure BusinessAccount where
  company_name : String
  nip : String
  state : AccountState
deriving DecidableEq, Repr

/-- `BusinessAccount.__init__`: balance starts at 0.0; a NIP that is not
exactly 10 ASCII digits is stored as the sentinel `"Invalid"` without any
external call; a syntactically valid NIP is verified through the injected
capability `verify` (the `validate_nip_in_mf` call), and a negative answer
aborts construction with the `Company not registered` error.  The second
component records the NIPs the verification capability was called on. -/
def businessInit (verify : String → Bool) (company_name nip : String) :
    Except String BusinessAccount × List String :=
  if nip.length = 10 ∧ nip.data.all isPyDigit then
    if verify nip then
      (.ok { company_name := company_name, nip := nip, state := accountInit 0 }, [nip])
    else
      (.error "Company not registered!!", [nip])
  else
    (.ok { company_name := company_name, nip := "Invalid", state := accountInit 0 }, [])

/-- `BusinessAccount.take_loan`: granted iff `balance >= amount * 2` and
`-1775` occurs anywhere in the history. -/
def take_loan (s : AccountState) (amount : ℚ) : Bool × AccountState :=
  if amount * 2 ≤ s.balance ∧ (-1775 : ℚ) ∈ s.historia then
    (true, { balance := s.balance + amount, historia := s.historia ++ [amount] })
  else
    (false, s)

/-- `InMemoryAccountRepository.find_by_pesel`: first account whose PESEL matches. -/
def find_by_pesel (l : List PersonalAccount) (pesel : String) : Option PersonalAccount :=
  l.find? (fun a => a.pesel == pesel)

/-- `InMemoryAccountRepository.add`: unconditional append. -/
def repoAdd (l : List PersonalAccount) (a : PersonalAccount) : List PersonalAccount :=
  l ++ [a]

/-- `InMemoryAccountRepository.count`. -/
def repoCount (l : List PersonalAccount) : Nat :=
  l.length

/-- `InMemoryAccountRepository.delete`: find the first account with the
given PESEL and remove exactly that one; `False` when absent. -/
def repoDelete : List PersonalAccount → String → Bool × List PersonalAccount
  | [], _ => (false, [])
  | a :: as, pesel =>
    if a.pesel == pesel then (true, as)
    else
      let r := repoDelete as pesel
      (r.1, a :: r.2)

/-- `InMemoryAccountRepository.save_all`: replace the stored list, return
the number stored. -/
def save_all (accounts : List PersonalAccount) : List PersonalAccount × Nat :=
  (accounts, accounts.length)

/-- `InMemoryAccountRepository.load_all`: a copy of the stored list. -/
def load_all (l : List PersonalAccount) : List PersonalAccount :=
  l

/-- `AccountRegistry.add_account` over the in-memory backend: duplicate
PESEL leaves the state untouched and reports the offending PESEL;
otherwise delegate to repository `add`.  The registry state is the
backing repository's list. -/
def add_account (l : List PersonalAccount) (a : PersonalAccount) :
    List PersonalAccount × Option String :=
  if (find_by_pesel l a.pesel).isSome then (l, some a.pesel)
  else (repoAdd l a, none)

/-- Run a sequence of `add_account` calls from the empty registry,
keeping the prior state whenever a call raises. -/
def runAdds (adds : List PersonalAccount) : List PersonalAccount :=
  adds.foldl (fun s a => (add_account s a).1) []

/-- `AccountRegistry.save_accounts_to_repository(target)`: export the
registry's full account set into the target via `save_all`, which replaces
whatever the target previously held; returns the new target state and the
count saved. -/
def save_accounts_to_repository (reg targetPrior : List PersonalAccount) :
    List PersonalAccount × Nat :=
  save_all reg

/-- `AccountRegistry.load_accounts_from_repository(source)`: `load_all`
from the source, clear the registry's backend (discarding `regPrior`),
re-add every loaded account; returns the new registry state and the count
loaded. -/
def load_accounts_from_repository (regPrior source : List PersonalAccount) :
    List PersonalAccount × Nat :=
  ((load_all source).foldl repoAdd [], (load_all source).length)

/-- The observable tuple of a personal account used by the round-trip claim. -/
def accountTuple (a : PersonalAccount) :
    String × String × String × ℚ × List ℚ × Option String :=
  (a.pesel, a.first_name, a.last_name, a.state.balance, a.state.historia, a.promo_code)

/-! ## Helper lemmas -/

lemma foldl_add_eq (i : ℚ) (l : List ℚ) :
    l.foldl (· + ·) i = i + l.foldl (· + ·) 0 := by
  induction l generalizing i with
  | nil => simp
  | cons x xs ih =>
    simp only [List.foldl_cons]
    rw [ih (i + x), ih (0 + x)]
    ring

lemma listSum_append (l l' : List ℚ) :
    listSum (l ++ l') = listSum l + listSum l' := by
  simp only [listSum, List.foldl_append]
  rw [foldl_add_eq]

lemma listSum_concat (l : List ℚ) (a : ℚ) :
    listSum (l ++ [a]) = listSum l + a := by
  rw [listSum_append]
  simp [listSum]

lemma listSum_concat2 (l : List ℚ) (a b : ℚ) :
    listSum (l ++ [a, b]) = listSum l + a + b := by
  rw [listSum_append]
  simp only [listSum, List.foldl_cons, List.foldl_nil]
  ring

lemma check1_iff (s : AccountState) :
    check_loan_condition_1 s = true ↔
      3 ≤ s.historia.length ∧ ∀ t ∈ lastN 3 s.historia, 0 < t := by
  unfold check_loan_condition_1
  split
  · next h =>
    simp only [Bool.false_eq_true, false_iff, not_and]
    intro h3
    omega
  · next h =>
    have h3 : 3 ≤ s.historia.length := by omega
    simp only [List.all_eq_true, decide_eq_true_eq]
    exact ⟨fun hall => ⟨h3, hall⟩, fun hc => hc.2⟩

lemma check2_iff (s : AccountState) (amount : ℚ) :
    check_loan_condition_2 s amount = true ↔
      5 ≤ s.historia.length ∧ amount < listSum (lastN 5 s.historia) := by
  unfold check_loan_condition_2
  split
  · next h =>
    simp only [Bool.false_eq_true, false_iff, not_and]
    intro h5
    omega
  · next h =>
    have h5 : 5 ≤ s.historia.length := by omega
    simp only [decide_eq_true_eq]
    exact ⟨fun hlt => ⟨h5, hlt⟩, fun hc => hc.2⟩

/-! ## Theorems about the claims -/

/-- C3: `express_transfer(amount)` succeeds exactly when
`0 < amount <= balance`; on success it subtracts `amount + fee` from the
balance and appends `-amount` then `-fee` as two separate history entries;
otherwise it is a no-op; when the prior balance equals `amount` exactly the
transfer succeeds and leaves the balance at `-fee`. -/
theorem express_transfer_spec (fee : ℚ) (s : AccountState) (amount : ℚ) :
    ((0 < amount ∧ amount ≤ s.balance) →
      express_transfer fee s amount =
        { balance := s.balance - (amount + fee),
          historia := s.historia ++ [-amount, -fee] }) ∧
    (¬(0 < amount ∧ amount ≤ s.balance) → express_transfer fee s amount = s) ∧
    ((0 < amount ∧ s.balance = amount) →
      (express_transfer fee s amount).balance = -fee) := by
  refine ⟨fun h => ?_, fun h => ?_, fun h => ?_⟩
  · simp [express_transfer, h]
  · simp [express_transfer, h]
  · have hc : 0 < amount ∧ amount ≤ s.balance := ⟨h.1, le_of_eq h.2.symm⟩
    simp only [express_transfer, if_pos hc]
    rw [h.2]
    ring

/-- C3 witness: the spec scenario `PersonalAccount(balance=100)`,
`express_transfer(100)` gives balance `-1.0` and history `[-100.0, -1.0]`. -/
theorem express_transfer_spec_witness :
    ((0 : ℚ) < 100 ∧ (100 : ℚ) ≤ (accountInit 100).balance) ∧
    express_transfer personal_express_transfer_fee (accountInit 100) 100 =
      { balance := -1, historia := [-100, -1] } ∧
    (express_transfer personal_express_transfer_fee (accountInit 100) 100).balance =
      -personal_express_transfer_fee := by
  have h := express_transfer_spec personal_express_transfer_fee (accountInit 100) 100
  have hc : (0 : ℚ) < 100 ∧ (100 : ℚ) ≤ (accountInit 100).balance := by
    norm_num [accountInit]
  refine ⟨hc, ?_, h.2.2 ⟨hc.1, by norm_num [accountInit]⟩⟩
  rw [h.1 hc]
  norm_num [accountInit, personal_express_transfer_fee]

/-- C5: `BusinessAccount.take_loan(amount)` is granted iff
`balance >= amount * 2` and the history contains `-1775` anywhere; when
granted it adds `amount` to the balance and appends it to the history;
otherwise it mutates nothing. -/
theorem take_loan_spec (s : AccountState) (amount : ℚ) :
    ((take_loan s amount).1 = true ↔
      amount * 2 ≤ s.balance ∧ (-1775 : ℚ) ∈ s.historia) ∧
    ((take_loan s amount).1 = true →
      (take_loan s amount).2 =
        { balance := s.balance + amount, historia := s.historia ++ [amount] }) ∧
    ((take_loan s amount).1 = false → (take_loan s amount).2 = s) := by
  unfold take_loan
  split
  · next h => exact ⟨by simp [h], fun _ => rfl, by simp⟩
  · next h => exact ⟨by simp [h], by simp, fun _ => rfl⟩

/-- C5 witness: the spec scenario: balance 4000, history containing
`-1775`, `take_loan(2000)` is granted and the balance becomes 6000. -/
theorem take_loan_spec_witness :
    (take_loan { balance := 4000, historia := [-1775] } 2000).1 = true ∧
    (take_loan { balance := 4000, historia := [-1775] } 2000).2 =
      { balance := 6000, historia := [-1775, 2000] } := by
  have h := take_loan_spec { balance := 4000, historia := [-1775] } 2000
  have hg : (take_loan { balance := 4000, historia := [-1775] } 2000).1 = true :=
    h.1.mpr ⟨by norm_num, by simp⟩
  refine ⟨hg, ?_⟩
  rw [h.2.1 hg]
  norm_num

/-- C4: `PersonalAccount.submit_for_loan(amount)` is granted iff either the
history has at least 3 entries and the last 3 are all strictly positive, or
it has at least 5 entries and the sum of the last 5 strictly exceeds
`amount`; when granted it adds `amount` to the balance and appends it to
the history; otherwise it mutates nothing. -/
theorem submit_for_loan_spec (s : AccountState) (amount : ℚ) :
    ((submit_for_loan s amount).1 = true ↔
      (3 ≤ s.historia.length ∧ ∀ t ∈ lastN 3 s.historia, 0 < t) ∨
      (5 ≤ s.historia.length ∧ amount < listSum (lastN 5 s.historia))) ∧
    ((submit_for_loan s amount).1 = true →
      (submit_for_loan s amount).2 =
        { balance := s.balance + amount, historia := s.historia ++ [amount] }) ∧
    ((submit_for_loan s amount).1 = false → (submit_for_loan s amount).2 = s) := by
  have h1 := check1_iff s
  have h2 := check2_iff s amount
  unfold submit_for_loan
  split
  · next h =>
    rw [Bool.or_eq_true] at h
    refine ⟨?_, fun _ => rfl, by simp⟩
    constructor
    · intro _
      rcases h with h | h
      · exact Or.inl (h1.mp h)
      · exact Or.inr (h2.mp h)
    · intro _
      rfl
  · next h =>
    rw [Bool.not_eq_true, Bool.or_eq_false_iff] at h
    obtain ⟨hc1, hc2⟩ := h
    refine ⟨?_, by simp, fun _ => rfl⟩
    simp only [Bool.false_eq_true, false_iff]
    rintro (hc | hc)
    · rw [h1.mpr hc] at hc1
      exact Bool.true_eq_false.mp hc1
    · rw [h2.mpr hc] at hc2
      exact Bool.true_eq_false.mp hc2

/-- C4 witness: history `[1, 2, 3]` (last three strictly positive) grants a
loan of 4, adding 4 to the balance and appending it to the history. -/
theorem submit_for_loan_spec_witness :
    (submit_for_loan { balance := 10, historia := [1, 2, 3] } 4).1 = true ∧
    (submit_for_loan { balance := 10, historia := [1, 2, 3] } 4).2 =
      { balance := 14, historia := [1, 2, 3, 4] } := by
  have h := submit_for_loan_spec { balance := 10, historia := [1, 2, 3] } 4
  have hg : (submit_for_loan { balance := 10, historia := [1, 2, 3] } 4).1 = true :=
    h.1.mpr (Or.inl ⟨by norm_num, by norm_num [lastN, List.forall_mem_cons]⟩)
  refine ⟨hg, ?_⟩
  rw [h.2.1 hg]
  norm_num

/-- C10: `submit_for_loan` performs no positivity check on its amount: when
the last 3 history entries are all strictly positive the loan is granted
for every amount, including zero and negative values, in which case the
balance drops by `|amount|` and the negative amount is appended. -/
theorem submit_for_loan_no_positivity_check (s : AccountState) (amount : ℚ)
    (h3 : 3 ≤ s.historia.length) (hpos : ∀ t ∈ lastN 3 s.historia, 0 < t) :
    submit_for_loan s amount =
      (true, { balance := s.balance + amount, historia := s.historia ++ [amount] }) ∧
    (amount < 0 → (submit_for_loan s amount).2.balance = s.balance - |amount|) := by
  have hc1 : check_loan_condition_1 s = true := (check1_iff s).mpr ⟨h3, hpos⟩
  have hcond : (check_loan_condition_1 s || check_loan_condition_2 s amount) = true := by
    simp [hc1]
  constructor
  · simp [submit_for_loan, hcond]
  · intro hneg
    simp only [submit_for_loan, hcond, if_pos]
    rw [abs_of_neg hneg]
    ring

/-- C10 witness: with history `[1, 2, 3]`, `submit_for_loan(-5)` is granted,
the balance drops from 10 to 5, and `-5` is appended to the history. -/
theorem submit_for_loan_no_positivity_check_witness :
    (3 ≤ ([1, 2, 3] : List ℚ).length ∧ ∀ t ∈ lastN 3 [1, 2, 3], 0 < t) ∧
    submit_for_loan { balance := 10, historia := [1, 2, 3] } (-5) =
      (true, { balance := 5, historia := [1, 2, 3, -5] }) ∧
    (submit_for_loan { balance := 10, historia := [1, 2, 3] } (-5)).2.balance =
      10 - |(-5 : ℚ)| := by
  have hpos : ∀ t ∈ lastN 3 ([1, 2, 3] : List ℚ), 0 < t := by
    norm_num [lastN, List.forall_mem_cons]
  have h := submit_for_loan_no_positivity_check
    { balance := 10, historia := [1, 2, 3] } (-5) (by norm_num) hpos
  refine ⟨⟨by norm_num, hpos⟩, ?_, ?_⟩
  · rw [h.1]
    norm_num
  · rw [h.2 (by norm_num)]

lemma promo_bonus_applies_iff (promo : Option String) (pesel : String) :
    promo_bonus_applies promo pesel = true ↔
      (∃ code, promo = some code ∧ pyStartsWith code "PROM_" = true ∧ code.length = 8) ∧
      pesel.length = 11 ∧
      pyStrLe "60".data (pesel.data.take 2) = true ∧
      pyStrLe (pesel.data.take 2) "69".data = true := by
  cases promo with
  | none => simp [promo_bonus_applies]
  | some code =>
    simp only [promo_bonus_applies, is_born_in_60s, Bool.and_eq_true, decide_eq_true_eq,
      Option.some.injEq]
    by_cases h11 : pesel.length = 11
    · simp only [if_pos h11, Bool.and_eq_true]
      constructor
      · rintro ⟨⟨hs, hl⟩, h60, h69⟩
        exact ⟨⟨code, rfl, hs, hl⟩, h11, h60, h69⟩
      · rintro ⟨⟨c, hc, hs, hl⟩, -, h60, h69⟩
        cases hc
        exact ⟨⟨hs, hl⟩, h60, h69⟩
    · simp only [if_neg h11, Bool.false_eq_true, and_false, false_iff, not_and]
      rintro - h
      exact absurd h h11

lemma businessInit_ok_state (verify : String → Bool) (company nip : String)
    (acc : BusinessAccount) (h : (businessInit verify company nip).1 = Except.ok acc) :
    acc.state = accountInit 0 := by
  unfold businessInit at h
  split at h
  · split at h
    · simp only [Except.ok.injEq] at h
      rw [← h]
    · simp at h
  · simp only [Except.ok.injEq] at h
    rw [← h]

/-- C6: `PersonalAccount` construction applies a one-time bonus of exactly
50 to the initial balance and appends it to the history iff the promo code
starts with `PROM_` and has total length 8, the PESEL has exactly 11
characters, and its first two characters lie between `"60"` and `"69"`; in
every other case no bonus is applied and the history starts empty. -/
theorem personal_account_promo_bonus (fn ln : String) (b0 : ℚ) (pesel : String)
    (promo : Option String) :
    (((∃ code, promo = some code ∧ pyStartsWith code "PROM_" = true ∧ code.length = 8) ∧
        pesel.length = 11 ∧
        pyStrLe "60".data (pesel.data.take 2) = true ∧
        pyStrLe (pesel.data.take 2) "69".data = true) →
      (personalInit fn ln b0 pesel promo).state =
        { balance := b0 + 50, historia := [50] }) ∧
    (¬((∃ code, promo = some code ∧ pyStartsWith code "PROM_" = true ∧ code.length = 8) ∧
        pesel.length = 11 ∧
        pyStrLe "60".data (pesel.data.take 2) = true ∧
        pyStrLe (pesel.data.take 2) "69".data = true) →
      (personalInit fn ln b0 pesel promo).state = { balance := b0, historia := [] }) := by
  constructor
  · intro h
    have hb : promo_bonus_applies promo pesel = true :=
      (promo_bonus_applies_iff promo pesel).mpr h
    simp [personalInit, accountInit, hb]
  · intro h
    have hb : promo_bonus_applies promo pesel = false := by
      cases hpb : promo_bonus_applies promo pesel
      · rfl
      · exact absurd ((promo_bonus_applies_iff promo pesel).mp hpb) h
    simp [personalInit, accountInit, hb]

/-- C6 witness: the spec scenario: `PersonalAccount(balance=0,
pesel="60241114012", promo="PROM_123")` yields balance 50.0 and history
`[50]`. -/
theorem personal_account_promo_bonus_witness :
    ((∃ code, (some "PROM_123" : Option String) = some code ∧
        pyStartsWith code "PROM_" = true ∧ code.length = 8) ∧
      ("60241114012" : String).length = 11 ∧
      pyStrLe "60".data (("60241114012" : String).data.take 2) = true ∧
      pyStrLe (("60241114012" : String).data.take 2) "69".data = true) ∧
    (personalInit "Jan" "Kowalski" 0 "60241114012" (some "PROM_123")).state =
      { balance := 50, historia := [50] } := by
  have hc : (∃ code, (some "PROM_123" : Option String) = some code ∧
      pyStartsWith code "PROM_" = true ∧ code.length = 8) ∧
      ("60241114012" : String).length = 11 ∧
      pyStrLe "60".data (("60241114012" : String).data.take 2) = true ∧
      pyStrLe (("60241114012" : String).data.take 2) "69".data = true :=
    ⟨⟨"PROM_123", rfl, by decide, by decide⟩, by decide, by decide, by decide⟩
  refine ⟨hc, ?_⟩
  rw [(personal_account_promo_bonus "Jan" "Kowalski" 0 "60241114012" (some "PROM_123")).1 hc]
  norm_num

/-- C8: `BusinessAccount` construction: a NIP that is not exactly 10
digits is stored as the sentinel `"Invalid"` with no verification call and
no error; a syntactically valid NIP triggers exactly one verification
call, a negative answer aborts construction with the company-not-registered
error, a positive one stores the NIP; every successful construction starts
with balance 0.0. -/
theorem business_account_nip_spec (verify : String → Bool) (company nip : String) :
    (¬(nip.length = 10 ∧ nip.data.all isPyDigit = true) →
      businessInit verify company nip =
        (Except.ok { company_name := company, nip := "Invalid", state := accountInit 0 },
          [])) ∧
    ((nip.length = 10 ∧ nip.data.all isPyDigit = true) →
      (businessInit verify company nip).2 = [nip] ∧
      (verify nip = false →
        (businessInit verify company nip).1 = Except.error "Company not registered!!") ∧
      (verify nip = true →
        (businessInit verify company nip).1 =
          Except.ok { company_name := company, nip := nip, state := accountInit 0 })) ∧
    (∀ acc : BusinessAccount, (businessInit verify company nip).1 = Except.ok acc →
      acc.state.balance = 0) := by
  refine ⟨fun h => ?_, fun h => ?_, fun acc hacc => ?_⟩
  · unfold businessInit
    rw [if_neg h]
  · cases hvf : verify nip
    · simp [businessInit, h, hvf]
    · simp [businessInit, h, hvf]
  · rw [businessInit_ok_state verify company nip acc hacc]
    rfl

/-- C8 witness: the 3-character NIP `"123"` is stored as `"Invalid"`
without consulting the verifier; the valid NIP `"1234567890"` is verified,
failing construction when the verifier answers false and succeeding with
balance 0 when it answers true. -/
theorem business_account_nip_spec_witness :
    businessInit (fun _ => false) "Firma" "123" =
      (Except.ok { company_name := "Firma", nip := "Invalid", state := accountInit 0 },
        []) ∧
    (businessInit (fun _ => false) "Firma" "1234567890").2 = ["1234567890"] ∧
    (businessInit (fun _ => false) "Firma" "1234567890").1 =
      Except.error "Company not registered!!" ∧
    (businessInit (fun _ => true) "Firma" "1234567890").1 =
      Except.ok { company_name := "Firma", nip := "1234567890", state := accountInit 0 } ∧
    ({ company_name := "Firma", nip := "1234567890",
        state := accountInit 0 } : BusinessAccount).state.balance = 0 := by
  have hbad : ¬(("123" : String).length = 10 ∧ ("123" : String).data.all isPyDigit = true) := by
    decide
  have hgood : ("1234567890" : String).length = 10 ∧
      ("1234567890" : String).data.all isPyDigit = true := by
    decide
  have hff := business_account_nip_spec (fun _ => false) "Firma" "1234567890"
  have htt := business_account_nip_spec (fun _ => true) "Firma" "1234567890"
  refine ⟨(business_account_nip_spec (fun _ => false) "Firma" "123").1 hbad,
    (hff.2.1 hgood).1, (hff.2.1 hgood).2.1 rfl, (htt.2.1 hgood).2.2 rfl, ?_⟩
  exact htt.2.2 { company_name := "Firma", nip := "1234567890", state := accountInit 0 }
    ((htt.2.1 hgood).2.2 rfl)

/-- C9: the in-memory repository's `add` appends unconditionally: adding
two accounts with the same PESEL yields count 2 and both coexist;
`find_by_pesel` returns the earliest-inserted match, and `delete` removes
exactly that earliest one (returning true) while the later one remains
stored and findable. -/
theorem memory_repository_duplicate_semantics (a1 a2 : PersonalAccount)
    (h : a1.pesel = a2.pesel) :
    repoAdd (repoAdd [] a1) a2 = [a1, a2] ∧
    repoCount [a1, a2] = 2 ∧
    find_by_pesel [a1, a2] a1.pesel = some a1 ∧
    repoDelete [a1, a2] a1.pesel = (true, [a2]) ∧
    find_by_pesel [a2] a1.pesel = some a2 := by
  refine ⟨rfl, rfl, ?_, ?_, ?_⟩
  · simp [find_by_pesel, List.find?]
  · simp [repoDelete]
  · simp [find_by_pesel, List.find?, h]

/-- C9 witness: two concrete distinct accounts sharing PESEL
`"60241114012"`: both are stored, lookup returns the first, delete removes
it and the second remains findable. -/
theorem memory_repository_duplicate_semantics_witness :
    (({ first_name := "Anna", last_name := "A", pesel := "60241114012", promo_code := none, state := accountInit 10 } : PersonalAccount).pesel =
      ({ first_name := "Beata", last_name := "B", pesel := "60241114012", promo_code := none, state := accountInit 20 } : PersonalAccount).pesel) ∧
    repoCount [{ first_name := "Anna", last_name := "A", pesel := "60241114012", promo_code := none, state := accountInit 10 },
      { first_name := "Beata", last_name := "B", pesel := "60241114012", promo_code := none, state := accountInit 20 }] = 2 ∧
    find_by_pesel [{ first_name := "Anna", last_name := "A", pesel := "60241114012", promo_code := none, state := accountInit 10 },
      { first_name := "Beata", last_name := "B", pesel := "60241114012", promo_code := none, state := accountInit 20 }] "60241114012" =
      some { first_name := "Anna", last_name := "A", pesel := "60241114012", promo_code := none, state := accountInit 10 } ∧
    repoDelete [{ first_name := "Anna", last_name := "A", pesel := "60241114012", promo_code := none, state := accountInit 10 },
      { first_name := "Beata", last_name := "B", pesel := "60241114012", promo_code := none, state := accountInit 20 }] "60241114012" =
      (true, [{ first_name := "Beata", last_name := "B", pesel := "60241114012", promo_code := none, state := accountInit 20 }]) := by
  have h := memory_repository_duplicate_semantics
    { first_name := "Anna", last_name := "A", pesel := "60241114012", promo_code := none, state := accountInit 10 }
    { first_name := "Beata", last_name := "B", pesel := "60241114012", promo_code := none, state := accountInit 20 } rfl
  exact ⟨rfl, h.2.1, h.2.2.1, h.2.2.2.1⟩

lemma add_account_nodup (s : List PersonalAccount) (a : PersonalAccount)
    (h : (s.map (fun b => b.pesel)).Nodup) :
    (((add_account s a).1).map (fun b => b.pesel)).Nodup := by
  unfold add_account
  by_cases hf : (find_by_pesel s a.pesel).isSome
  · rw [if_pos hf]
    exact h
  · rw [if_neg hf]
    have hnotin : a.pesel ∉ s.map (fun b => b.pesel) := by
      intro hmem
      obtain ⟨b, hb, hbp⟩ := List.mem_map.mp hmem
      refine hf (List.find?_isSome.mpr ⟨b, hb, ?_⟩)
      exact beq_iff_eq.mpr hbp
    simp only [repoAdd, List.map_append, List.map_cons, List.map_nil]
    rw [List.nodup_append]
    exact ⟨h, List.nodup_singleton _, by
      intro x hx hx'
      rw [List.mem_singleton.mp hx'] at hx
      exact hnotin hx⟩

/-- C2: starting from an empty registry, after any sequence of
`add_account` calls the stored PESELs are pairwise distinct, and a further
`add_account` whose PESEL is already present raises `DuplicatePeselError`
carrying that PESEL and leaves the registry state exactly as it was. -/
theorem registry_add_account_unique (adds : List PersonalAccount) (a : PersonalAccount) :
    ((runAdds adds).map (fun b => b.pesel)).Nodup ∧
    ((find_by_pesel (runAdds adds) a.pesel).isSome = true →
      add_account (runAdds adds) a = (runAdds adds, some a.pesel)) := by
  constructor
  · suffices h : ∀ (l s : List PersonalAccount), (s.map (fun b => b.pesel)).Nodup →
        ((l.foldl (fun s a => (add_account s a).1) s).map (fun b => b.pesel)).Nodup by
      exact h adds [] (by simp)
    intro l
    induction l with
    | nil =>
      intro s hs
      exact hs
    | cons x xs ih =>
      intro s hs
      exact ih _ (add_account_nodup s x hs)
  · intro h
    unfold add_account
    rw [if_pos h]

/-- C2 witness: adding a second account with PESEL `"60241114012"` raises
`DuplicatePeselError` with that PESEL and leaves the single-account state
unchanged. -/
theorem registry_add_account_unique_witness :
    ((runAdds [{ first_name := "Anna", last_name := "A", pesel := "60241114012", promo_code := none, state := accountInit 10 }]).map (fun b => b.pesel)).Nodup ∧
    (find_by_pesel (runAdds [{ first_name := "Anna", last_name := "A", pesel := "60241114012", promo_code := none, state := accountInit 10 }]) "60241114012").isSome = true ∧
    add_account
      (runAdds [{ first_name := "Anna", last_name := "A", pesel := "60241114012", promo_code := none, state := accountInit 10 }])
      { first_name := "Beata", last_name := "B", pesel := "60241114012", promo_code := none, state := accountInit 20 } =
      (runAdds [{ first_name := "Anna", last_name := "A", pesel := "60241114012", promo_code := none, state := accountInit 10 }],
        some "60241114012") := by
  have h := registry_add_account_unique
    [{ first_name := "Anna", last_name := "A", pesel := "60241114012", promo_code := none, state := accountInit 10 }]
    { first_name := "Beata", last_name := "B", pesel := "60241114012", promo_code := none, state := accountInit 20 }
  have hfound : (find_by_pesel
      (runAdds [{ first_name := "Anna", last_name := "A", pesel := "60241114012", promo_code := none, state := accountInit 10 }])
      "60241114012").isSome = true := by
    simp [runAdds, add_account, find_by_pesel, repoAdd, List.find?]
  exact ⟨h.1, hfound, h.2 hfound⟩

lemma foldl_repoAdd (l acc : List PersonalAccount) :
    l.foldl repoAdd acc = acc ++ l := by
  induction l generalizing acc with
  | nil => simp
  | cons x xs ih =>
    simp only [List.foldl_cons, repoAdd, ih, List.append_assoc, List.singleton_append]

/-- C7: saving a non-empty registry into a target repository overwrites the
target with exactly the registry's accounts and returns their number, and
an immediate load from that target reproduces the account set — identical
`(pesel, first_name, last_name, balance, history, promo_code)` tuples —
and makes the registry's visible state exactly the target's snapshot,
whatever the registry held just before the load. -/
theorem save_load_round_trip (reg targetPrior regBeforeLoad : List PersonalAccount)
    (h : reg ≠ []) :
    (save_accounts_to_repository reg targetPrior).2 = reg.length ∧
    (save_accounts_to_repository reg targetPrior).1 = reg ∧
    (load_accounts_from_repository regBeforeLoad
      (save_accounts_to_repository reg targetPrior).1).1 = reg ∧
    ((load_accounts_from_repository regBeforeLoad
      (save_accounts_to_repository reg targetPrior).1).1).map accountTuple =
      reg.map accountTuple ∧
    (load_accounts_from_repository regBeforeLoad
      (save_accounts_to_repository reg targetPrior).1).2 = reg.length := by
  unfold save_accounts_to_repository save_all load_accounts_from_repository load_all
  simp [foldl_repoAdd]

/-- C7 witness: round-tripping a one-account registry through a target
repository that previously held a different account restores the registry
exactly, independent of what the registry held in between. -/
theorem save_load_round_trip_witness :
    ([{ first_name := "Anna", last_name := "A", pesel := "60241114012", promo_code := none, state := accountInit 10 }] : List PersonalAccount) ≠ [] ∧
    (save_accounts_to_repository
      [{ first_name := "Anna", last_name := "A", pesel := "60241114012", promo_code := none, state := accountInit 10 }]
      [{ first_name := "Beata", last_name := "B", pesel := "11111111111", promo_code := none, state := accountInit 20 }]).1 =
      [{ first_name := "Anna", last_name := "A", pesel := "60241114012", promo_code := none, state := accountInit 10 }] ∧
    (load_accounts_from_repository []
      (save_accounts_to_repository
        [{ first_name := "Anna", last_name := "A", pesel := "60241114012", promo_code := none, state := accountInit 10 }]
        [{ first_name := "Beata", last_name := "B", pesel := "11111111111", promo_code := none, state := accountInit 20 }]).1).1 =
      [{ first_name := "Anna", last_name := "A", pesel := "60241114012", promo_code := none, state := accountInit 10 }] := by
  have h := save_load_round_trip
    [{ first_name := "Anna", last_name := "A", pesel := "60241114012", promo_code := none, state := accountInit 10 }]
    [{ first_name := "Beata", last_name := "B", pesel := "11111111111", promo_code := none, state := accountInit 20 }]
    [] (by simp)
  exact ⟨by simp, h.2.1, h.2.2.1⟩

lemma applyOp_balance_sub_sum (fee : ℚ) (s : AccountState) (op : Op) :
    (applyOp fee s op).balance - listSum (applyOp fee s op).historia =
      s.balance - listSum s.historia := by
  cases op <;>
    simp only [applyOp, incoming_transfer, outgoing_transfer, express_transfer] <;>
    split <;>
    simp [listSum_concat, listSum_concat2] <;>
    ring

lemma runOps_balance_sub_sum (fee : ℚ) (ops : List Op) (s : AccountState) :
    (runOps fee s ops).balance - listSum (runOps fee s ops).historia =
      s.balance - listSum s.historia := by
  induction ops generalizing s with
  | nil => rfl
  | cons op ops ih =>
    show (runOps fee (applyOp fee s op) ops).balance -
        listSum (runOps fee (applyOp fee s op) ops).historia = _
    rw [ih (applyOp fee s op), applyOp_balance_sub_sum]

/-- C1 (amended): for every account — base, personal, or business — and
every sequence of `incoming_transfer` / `outgoing_transfer` /
`express_transfer` calls applied after construction, the balance equals
the balance given to the constructor (0 for business accounts) plus the
sum of all entries ever appended to the history; the promo bonus, when
applied at construction, enters that sum through its own history entry. -/
theorem account_balance_equals_initial_plus_history (b0 : ℚ) (ops : List Op)
    (fn ln pes : String) (promo : Option String)
    (verify : String → Bool) (company nip : String) :
    (runOps base_express_transfer_fee (accountInit b0) ops).balance =
      b0 + listSum (runOps base_express_transfer_fee (accountInit b0) ops).historia ∧
    (runOps personal_express_transfer_fee (personalInit fn ln b0 pes promo).state ops).balance =
      b0 + listSum (runOps personal_express_transfer_fee
        (personalInit fn ln b0 pes promo).state ops).historia ∧
    (∀ acc : BusinessAccount, (businessInit verify company nip).1 = Except.ok acc →
      (runOps business_express_transfer_fee acc.state ops).balance =
        listSum (runOps business_express_transfer_fee acc.state ops).historia) := by
  refine ⟨?_, ?_, fun acc hacc => ?_⟩
  · have h := runOps_balance_sub_sum base_express_transfer_fee ops (accountInit b0)
    have h0 : (accountInit b0).balance - listSum (accountInit b0).historia = b0 := by
      simp [accountInit, listSum]
    rw [h0] at h
    linarith
  · have h := runOps_balance_sub_sum personal_express_transfer_fee ops
      (personalInit fn ln b0 pes promo).state
    have hst : (personalInit fn ln b0 pes promo).state.balance -
        listSum (personalInit fn ln b0 pes promo).state.historia = b0 := by
      cases hb : promo_bonus_applies promo pes <;>
        simp [personalInit, accountInit, hb, listSum]
    rw [hst] at h
    linarith
  · rw [businessInit_ok_state verify company nip acc hacc]
    have h := runOps_balance_sub_sum business_express_transfer_fee ops (accountInit 0)
    have h0 : (accountInit 0).balance - listSum (accountInit 0).historia = 0 := by
      simp [accountInit, listSum]
    rw [h0] at h
    linarith

/-- C1 witness: a concrete business account constructed with a succeeding
verifier, run through one incoming transfer, keeps balance equal to the
sum of its history. -/
theorem account_balance_equals_initial_plus_history_witness :
    (businessInit (fun _ => true) "Firma" "1234567890").1 =
      Except.ok { company_name := "Firma", nip := "1234567890", state := accountInit 0 } ∧
    (runOps base_express_transfer_fee (accountInit 100) [Op.incoming 7]).balance =
      100 + listSum (runOps base_express_transfer_fee (accountInit 100) [Op.incoming 7]).historia ∧
    (runOps business_express_transfer_fee (accountInit 0) [Op.incoming 7]).balance =
      listSum (runOps business_express_transfer_fee (accountInit 0) [Op.incoming 7]).historia := by
  have hok : (businessInit (fun _ => true) "Firma" "1234567890").1 =
      Except.ok { company_name := "Firma", nip := "1234567890", state := accountInit 0 } := by
    have hgood : ("1234567890" : String).length = 10 ∧
        ("1234567890" : String).data.all isPyDigit = true := by
      decide
    exact ((business_account_nip_spec (fun _ => true) "Firma" "1234567890").2.1 hgood).2.2 rfl
  have h := account_balance_equals_initial_plus_history 100 [Op.incoming 7]
    "Anna" "A" "60241114012" none (fun _ => true) "Firma" "1234567890"
  exact ⟨hok, h.1,
    h.2.2 { company_name := "Firma", nip := "1234567890", state := accountInit 0 } hok⟩

/-- C1 counterexample to the claim as stated: for the personal account
constructed with initial balance 100, PESEL `"60241114012"` and promo code
`"PROM_123"` (so the 50 bonus is applied and recorded in the history), and
the empty call sequence, the balance **150** differs from the sum of all
history entries plus the promo bonus, which is **100**: the claim omits
the constructor's initial balance and counts the bonus twice. -/
theorem account_balance_claim_counterexample :
    ¬ ((runOps personal_express_transfer_fee
          (personalInit "Jan" "Kowalski" 100 "60241114012" (some "PROM_123")).state []).balance =
        listSum (runOps personal_express_transfer_fee
          (personalInit "Jan" "Kowalski" 100 "60241114012" (some "PROM_123")).state []).historia
          + 50) := by
  have hb : promo_bonus_applies (some "PROM_123") "60241114012" = true := by
    decide
  simp only [runOps, List.foldl_nil]
  norm_num [personalInit, accountInit, hb, listSum]

end BankApp
